import Mathlib

/-!
Shallow embedding of the credit-card billing-cycle engine of
`src/backend/main.py` (FinControl backend): statement period calculation,
recurring-rule candidate generation, statement building with
deduplication, the 12-month invoice projection, and invoice payment.

Dates are modelled as `(year, month, day)` triples ordered
lexicographically; for the four-digit years in scope this order coincides
with the lexicographic order on the ISO `YYYY-MM-DD` strings the database
stores and compares.  Monetary amounts (`Float` in the source) are
modelled as `Int`: the claims under study concern which amounts are
counted and how often, never floating-point rounding.
-/

/-- A calendar date `(year, month, day)`. -/
structure Date where
  year : Nat
  month : Nat
  day : Nat
deriving DecidableEq, Repr

/-- Strict lexicographic order on dates: mirrors both Python `date`
comparison and the ISO-string comparison used in the SQL queries. -/
def dateLt (a b : Date) : Bool :=
  a.year < b.year ||
  (a.year == b.year && (a.month < b.month ||
    (a.month == b.month && a.day < b.day)))

/-- Non-strict lexicographic order on dates. -/
def dateLe (a b : Date) : Bool :=
  dateLt a b || a == b

/-- Gregorian leap-year test (`calendar.isleap`). -/
def isLeap (y : Nat) : Bool :=
  (y % 4 == 0 && y % 100 != 0) || y % 400 == 0

/-- Number of days in a month (`calendar.monthrange(year, month)[1]`). -/
def daysInMonth (y m : Nat) : Nat :=
  if m == 2 then (if isLeap y then 29 else 28)
  else if m == 4 || m == 6 || m == 9 || m == 11 then 30
  else 31

/-- `datetime.date(year, month, day)`: `some` when the day is valid for
the month, `none` when the constructor would raise `ValueError`. -/
def mkDate (y m d : Nat) : Option Date :=
  if 1 ≤ d && d ≤ daysInMonth y m then some ⟨y, m, d⟩ else none

/-- `get_date_safe(year, month, day)` from `main.py`: builds the date,
clamping an out-of-range day to the last day of the month. -/
def get_date_safe (y m d : Nat) : Date :=
  match mkDate y m d with
  | some dt => dt
  | none => ⟨y, m, daysInMonth y m⟩

/-- A year-month pair, as parsed from the `YYYY-MM` request parameter. -/
structure YM where
  year : Nat
  month : Nat
deriving DecidableEq, Repr

/-- `target_date - relativedelta(months=1)`: the previous calendar month. -/
def YM.prev (ym : YM) : YM :=
  if ym.month == 1 then ⟨ym.year - 1, 12⟩ else ⟨ym.year, ym.month - 1⟩

/-- `target_date + relativedelta(months=1)` restricted to the year-month
component (the projection loop only ever reads `.year` and `.month`). -/
def YM.next (ym : YM) : YM :=
  if ym.month == 12 then ⟨ym.year + 1, 1⟩ else ⟨ym.year, ym.month + 1⟩

/-- `target_date + relativedelta(months=i)` on the year-month component. -/
def YM.addMonths (ym : YM) : Nat → YM
  | 0 => ym
  | n + 1 => (ym.addMonths n).next

/-- Statement period computation shared by the statement, projection and
payment endpoints: `start = get_date_safe(prev month, closing_day)`,
`end = get_date_safe(target month, closing_day)`. -/
def statementPeriod (closing_day : Nat) (target : YM) : Date × Date :=
  (get_date_safe target.prev.year target.prev.month closing_day,
   get_date_safe target.year target.month closing_day)


/-! ### Data model (from `src/backend/models.py`) -/

/-- `models.CreditCard` (the fields the billing engine reads). -/
structure CreditCard where
  id : String
  user_id : String
  closing_day : Nat
  due_day : Nat
deriving DecidableEq, Repr

/-- `models.Transaction` (date stored as `YYYY-MM-DD`, modelled as `Date`). -/
structure Transaction where
  id : String
  user_id : String
  category_id : Option String
  credit_card_id : Option String
  recurring_rule_id : Option String
  amount : Int
  date : Date
  description : String
  status : String
  created_at : String
deriving DecidableEq, Repr

/-- `models.RecurringRule` (the fields the billing engine reads;
`end_date` is stored as a `YYYY-MM-DD` string or NULL, modelled as
`Option Date`). -/
structure RecurringRule where
  id : String
  user_id : String
  category_id : Option String
  credit_card_id : Option String
  amount : Int
  description : String
  rrule : String
  active : Bool
  end_date : Option Date
deriving DecidableEq, Repr

/-! ### `re.search(r"BYMONTHDAY=(\d+)", rule.rrule)` -/

/-- Character-list prefix test used by the scanner below. -/
def startsWithChars : List Char → List Char → Bool
  | [], _ => true
  | _ :: _, [] => false
  | a :: as, b :: bs => a == b && startsWithChars as bs

/-- Numeric value of a digit run (most significant first). -/
def digitsToNat (acc : Nat) : List Char → Nat
  | [] => acc
  | c :: cs => digitsToNat (acc * 10 + (c.toNat - 48)) cs

/-- Scanner for `re.search(r"BYMONTHDAY=(\d+)", s)`: finds the first
position where the literal `BYMONTHDAY=` is followed by at least one
digit and returns the value of the maximal digit run there; `none` when
no such position exists (the `if match:` branch is not taken). -/
def scanByMonthDay (pat : List Char) : List Char → Option Nat
  | [] => none
  | c :: rest =>
    let s := c :: rest
    if startsWithChars pat s then
      let tail := s.drop pat.length
      let ds := tail.takeWhile Char.isDigit
      if ds.isEmpty then scanByMonthDay pat rest else some (digitsToNat 0 ds)
    else scanByMonthDay pat rest

/-- `re.search(r"BYMONTHDAY=(\d+)", rrule)` as used in both the statement
builder and the projector: the extracted day, or `none` for rules (e.g.
weekly or yearly) whose descriptor has no `BYMONTHDAY` component. -/
def extractByMonthDay (rrule : String) : Option Nat :=
  scanByMonthDay "BYMONTHDAY=".toList rrule.toList


/-! ### Statement items (`get_credit_card_statement`) -/

/-- Two-digit zero padding, as in `strftime` month/day fields. -/
def pad2 (n : Nat) : String := if n < 10 then "0" ++ toString n else toString n

/-- Four-digit zero padding, as in `strftime` year field. -/
def pad4 (n : Nat) : String :=
  if n < 10 then "000" ++ toString n
  else if n < 100 then "00" ++ toString n
  else if n < 1000 then "0" ++ toString n
  else toString n

/-- `d.strftime("%Y-%m-%d")` / `f"{d}"`. -/
def isoDate (d : Date) : String := pad4 d.year ++ "-" ++ pad2 d.month ++ "-" ++ pad2 d.day

/-- The ad-hoc dict synthesized for a projected recurring occurrence. -/
structure VirtualItem where
  id : String
  category_id : Option String
  credit_card_id : Option String
  recurring_rule_id : String
  amount : Int
  date : Date
  description : String
  status : String
  created_at : String
deriving DecidableEq, Repr

/-- A statement item: either a persisted `Transaction` row or the virtual
dict for a projected occurrence (the source keeps both shapes in one list
and normalizes at the end). -/
inductive Item where
  | real (t : Transaction)
  | virt (v : VirtualItem)
deriving DecidableEq, Repr

/-- Item date (uniform across both shapes after normalization). -/
def Item.date : Item → Date
  | .real t => t.date
  | .virt v => v.date

/-- Item amount. -/
def Item.amount : Item → Int
  | .real t => t.amount
  | .virt v => v.amount

/-- The dedup accessor
`getattr(t, 'recurring_rule_id', None) or (t.get('recurring_rule_id') if isinstance(t, dict) else None)`:
for a persisted row Python's `or` collapses a falsy value (`None` or the
empty string) to `None`; for the virtual dict the `getattr` yields `None`
and the dict value is taken as is. -/
def Item.dedupRuleId : Item → Option String
  | .real t =>
      match t.recurring_rule_id with
      | none => none
      | some s => if s == "" then none else some s
  | .virt v => some v.recurring_rule_id

/-- `f"virtual-{rule.id}-{d}"` plus the other dict fields. `now` is the
`datetime.datetime.now().isoformat()` timestamp. -/
def mkVirtual (card_id : String) (rule : RecurringRule) (d : Date) (now : String) : VirtualItem :=
  { id := "virtual-" ++ rule.id ++ "-" ++ isoDate d
  , category_id := rule.category_id
  , credit_card_id := some card_id
  , recurring_rule_id := rule.id
  , amount := rule.amount
  , date := d
  , description := rule.description ++ " (Recorrente)"
  , status := "PENDING"
  , created_at := now }

/-- Candidate occurrence dates in `get_credit_card_statement`: the exact
date constructor is tried on the start month (`ValueError` ⇒ skipped, no
clamping) and, only when the end month differs from the start month, on
the end month. -/
def candidatesFor (start_d end_d : Date) (day : Nat) : List Date :=
  let c1 := match mkDate start_d.year start_d.month day with
    | some d => [d]
    | none => []
  let c2 :=
    if end_d.month != start_d.month || end_d.year != start_d.year then
      match mkDate end_d.year end_d.month day with
      | some d => [d]
      | none => []
    else []
  c1 ++ c2

/-- `if rule.end_date: ... if d > rule_end: continue`. -/
def afterRuleEnd (rule : RecurringRule) (d : Date) : Bool :=
  match rule.end_date with
  | some stop => dateLt stop d
  | none => false

/-- The duplication check against the running item list: same
`recurring_rule_id` (via the dedup accessor) and same date. -/
def stmtDedupHit (rule_id : String) (d : Date) (it : Item) : Bool :=
  it.dedupRuleId == some rule_id && it.date == d

/-- Body of `for d in candidates:` in the statement builder: bounds
check, rule end-date check, duplication check, then append the virtual
item and add the rule amount to the running total. -/
def stmtProcessCandidate (card_id : String) (now : String) (start_d end_d : Date)
    (rule : RecurringRule) (acc : List Item × Int) (d : Date) : List Item × Int :=
  if !(dateLe start_d d && dateLt d end_d) then acc
  else if afterRuleEnd rule d then acc
  else if acc.1.any (stmtDedupHit rule.id d) then acc
  else (acc.1 ++ [Item.virt (mkVirtual card_id rule d now)], acc.2 + rule.amount)

/-- Body of `for rule in rules:` in the statement builder. -/
def stmtProcessRule (card_id : String) (now : String) (start_d end_d : Date)
    (acc : List Item × Int) (rule : RecurringRule) : List Item × Int :=
  match extractByMonthDay rule.rrule with
  | none => acc
  | some day =>
      (candidatesFor start_d end_d day).foldl
        (stmtProcessCandidate card_id now start_d end_d rule) acc

/-- The transaction query filter shared by the three endpoints:
`user_id`, `credit_card_id`, `date >= start`, `date < end`. -/
def txnInPeriodQuery (user_id card_id : String) (start_d end_d : Date)
    (t : Transaction) : Bool :=
  t.user_id == user_id && t.credit_card_id == some card_id &&
  dateLe start_d t.date && dateLt t.date end_d

/-- The statement/projection transaction query (rows in storage order;
the statement endpoint re-sorts its output at the end, so the query's
own `ORDER BY` affects only database-unspecified tie order). -/
def queryPeriodTxns (user_id card_id : String) (start_d end_d : Date)
    (txns : List Transaction) : List Transaction :=
  txns.filter (txnInPeriodQuery user_id card_id start_d end_d)

/-- The recurring-rule query: `user_id`, `credit_card_id`, `active == True`. -/
def queryActiveRules (user_id card_id : String) (rules : List RecurringRule) :
    List RecurringRule :=
  rules.filter (fun r => r.user_id == user_id && r.credit_card_id == some card_id && r.active)

/-- Stable descending insertion by date: the new element goes before the
first strictly older element, after any element with an equal date. -/
def insertByDateDesc (a : Item) : List Item → List Item
  | [] => [a]
  | b :: bs => if dateLt b.date a.date then a :: b :: bs else b :: insertByDateDesc a bs

/-- `items.sort(key=lambda x: x['date'], reverse=True)` — Python's stable
descending sort by date. -/
def sortByDateDesc (l : List Item) : List Item :=
  l.foldl (fun acc a => insertByDateDesc a acc) []

/-- Status derivation: OPEN until `today >= end_date`, then CLOSED,
upgraded to OVERDUE once `today > due_date`. -/
def statementStatus (today end_d due : Date) : String :=
  if dateLe end_d today then
    (if dateLt due today then "OVERDUE" else "CLOSED")
  else "OPEN"

/-- The statement response. -/
structure Statement where
  period_start : Date
  period_end : Date
  items : List Item
  total : Int
  status : String
  due_date : Date
deriving DecidableEq, Repr

/-- `get_credit_card_statement` after the card lookup and month parsing:
period computation, transaction query, recurring-rule projection with
deduplication, normalization + sort, status derivation. `today` is
`datetime.date.today()` and `now` the `created_at` timestamp for virtual
items. -/
def buildStatement (card : CreditCard) (month : YM) (db_txns : List Transaction)
    (db_rules : List RecurringRule) (today : Date) (now : String) : Statement :=
  let p := statementPeriod card.closing_day month
  let start_d := p.1
  let end_d := p.2
  let real := queryPeriodTxns card.user_id card.id start_d end_d db_txns
  let items0 : List Item := real.map Item.real
  let total0 : Int := (real.map Transaction.amount).sum
  let rules := queryActiveRules card.user_id card.id db_rules
  let res := rules.foldl (stmtProcessRule card.id now start_d end_d) (items0, total0)
  let due := get_date_safe month.year month.month card.due_day
  { period_start := start_d
  , period_end := end_d
  , items := sortByDateDesc res.1
  , total := res.2
  , status := statementStatus today end_d due
  , due_date := due }

/-! ### Projection (`get_credit_card_projection`) -/

/-- Candidate dates in the projector: both months are tried
unconditionally (no months-differ guard, unlike the statement builder),
each via the exact constructor with `ValueError` ⇒ skip. -/
def projCandidates (start_d end_d : Date) (day : Nat) : List Date :=
  (match mkDate start_d.year start_d.month day with
    | some d => [d]
    | none => []) ++
  (match mkDate end_d.year end_d.month day with
    | some d => [d]
    | none => [])

/-- The projector's duplication check against persisted rows:
`t.recurring_rule_id == rule.id and t.date == d.strftime("%Y-%m-%d")`
(direct attribute access, no falsy collapse). -/
def projDedupHit (rule_id : String) (d : Date) (t : Transaction) : Bool :=
  t.recurring_rule_id == some rule_id && t.date == d

/-- Body of `for d in candidates:` in the projector, threading the
running `(contribution, added)` pair: a rule adds its amount at most
once per period thanks to the `added` flag. -/
def projCandidateStep (rule : RecurringRule) (start_d end_d : Date)
    (qt : List Transaction) (acc : Int × Bool) (d : Date) : Int × Bool :=
  if dateLe start_d d && dateLt d end_d then
    if afterRuleEnd rule d then acc
    else if qt.any (projDedupHit rule.id d) then acc
    else if acc.2 then acc
    else (acc.1 + rule.amount, true)
  else acc

/-- What one rule adds to a projected month's total (the inner candidate
loop never reads the running month total, so it is computed per rule). -/
def ruleContribution (rule : RecurringRule) (start_d end_d : Date)
    (qt : List Transaction) : Int :=
  match extractByMonthDay rule.rrule with
  | none => 0
  | some day =>
      ((projCandidates start_d end_d day).foldl
        (projCandidateStep rule start_d end_d qt) (0, false)).1

/-- One `{month, total, due_date}` entry of the projection response. -/
structure ProjEntry where
  month : YM
  total : Int
  due_date : Date
deriving DecidableEq, Repr

/-- One iteration of the projection loop: period, transaction query,
transaction total plus each active rule's contribution. -/
def projectionEntry (card : CreditCard) (db_txns : List Transaction)
    (db_rules : List RecurringRule) (target : YM) : ProjEntry :=
  let p := statementPeriod card.closing_day target
  let qt := queryPeriodTxns card.user_id card.id p.1 p.2 db_txns
  let base := (qt.map Transaction.amount).sum
  let rules := queryActiveRules card.user_id card.id db_rules
  { month := target
  , total := rules.foldl (fun tot r => tot + ruleContribution r p.1 p.2 qt) base
  , due_date := get_date_safe target.year target.month card.due_day }

/-- `get_credit_card_projection` after the card lookup: one entry per
`i in range(12)`, for `today + relativedelta(months=i)` (only the
year-month component of that sum is ever read). -/
def getProjection (card : CreditCard) (db_txns : List Transaction)
    (db_rules : List RecurringRule) (today : Date) : List ProjEntry :=
  (List.range 12).map
    (fun i => projectionEntry card db_txns db_rules (YM.addMonths ⟨today.year, today.month⟩ i))

/-! ### Payment (`pay_credit_card_invoice`) -/

/-- The payment query: the period filter plus `status == 'PENDING'`. -/
def payInvoiceQuery (user_id card_id : String) (start_d end_d : Date)
    (t : Transaction) : Bool :=
  txnInPeriodQuery user_id card_id start_d end_d t && t.status == "PENDING"

/-- `pay_credit_card_invoice` after the card lookup and month parsing:
every selected row's status is set to `PAID` and the row count is
returned. The result is `(new database state, count)`. -/
def payInvoice (card : CreditCard) (month : YM) (db_txns : List Transaction) :
    List Transaction × Nat :=
  let p := statementPeriod card.closing_day month
  let sel := payInvoiceQuery card.user_id card.id p.1 p.2
  (db_txns.map (fun t => if sel t then { t with status := "PAID" } else t),
   (db_txns.filter sel).length)

/-! ### Concrete database rows used in witnesses and counterexamples -/

/-- Card with `closing_day = 10`, `due_day = 20` (spec scenario 1). -/
def card10 : CreditCard := ⟨"c1", "u1", 10, 20⟩

/-- Card with `closing_day = 31`, `due_day = 20`. -/
def card31 : CreditCard := ⟨"c1", "u1", 31, 20⟩

/-- Monthly rule on day 15, amount 150 (spec scenarios 2 and 3). -/
def rule15 : RecurringRule :=
  ⟨"r1", "u1", none, some "c1", 150, "Gym", "FREQ=MONTHLY;BYMONTHDAY=15", true, none⟩

/-- Monthly rule on day 29, amount 100. -/
def rule29 : RecurringRule :=
  ⟨"r1", "u1", none, some "c1", 100, "Gym", "FREQ=MONTHLY;BYMONTHDAY=29", true, none⟩

/-- Monthly rule on day 31, amount 100. -/
def rule31 : RecurringRule :=
  ⟨"r1", "u1", none, some "c1", 100, "Gym", "FREQ=MONTHLY;BYMONTHDAY=31", true, none⟩

/-- Weekly rule with no `BYMONTHDAY` component. -/
def ruleWeekly : RecurringRule :=
  ⟨"r2", "u1", none, some "c1", 50, "Coffee", "FREQ=WEEKLY;BYDAY=MO", true, none⟩

/-- Materialized occurrence of `rule15` on 2024-02-15, already PAID
(spec scenario 3). -/
def txn15 : Transaction :=
  ⟨"t1", "u1", none, some "c1", some "r1", 150, ⟨2024, 2, 15⟩, "Gym", "PAID", "ts"⟩

/-- A PENDING card transaction inside the 2024-03 period of `card10`. -/
def txnPending : Transaction :=
  ⟨"t2", "u1", none, some "c1", none, 80, ⟨2024, 2, 20⟩, "Market", "PENDING", "ts"⟩

/-! ### Order lemmas for dates -/

theorem dateLt_iff (a b : Date) : dateLt a b = true ↔
    (a.year < b.year ∨ (a.year = b.year ∧
      (a.month < b.month ∨ (a.month = b.month ∧ a.day < b.day)))) := by
  simp [dateLt]

theorem dateLe_iff (a b : Date) : dateLe a b = true ↔
    (a.year < b.year ∨ (a.year = b.year ∧
      (a.month < b.month ∨ (a.month = b.month ∧ a.day ≤ b.day)))) := by
  rcases a with ⟨ay, am, ad⟩
  rcases b with ⟨by_, bm, bd⟩
  simp [dateLe, dateLt, Date.mk.injEq]
  omega

/-! ### `get_date_safe` structure lemmas -/

theorem get_date_safe_eq (y m d : Nat) :
    get_date_safe y m d =
      if 1 ≤ d && d ≤ daysInMonth y m then ⟨y, m, d⟩ else ⟨y, m, daysInMonth y m⟩ := by
  unfold get_date_safe mkDate
  by_cases h : (1 ≤ d && d ≤ daysInMonth y m) = true
  · simp [h]
  · simp [h]

theorem get_date_safe_year (y m d : Nat) : (get_date_safe y m d).year = y := by
  rw [get_date_safe_eq]; split <;> rfl

theorem get_date_safe_month (y m d : Nat) : (get_date_safe y m d).month = m := by
  rw [get_date_safe_eq]; split <;> rfl

/-! ### Sorting is a permutation -/

theorem insertByDateDesc_perm (a : Item) (l : List Item) :
    List.Perm (insertByDateDesc a l) (a :: l) := by
  induction l with
  | nil => exact List.Perm.refl _
  | cons b bs ih =>
    unfold insertByDateDesc
    split
    · exact List.Perm.refl _
    · exact (ih.cons b).trans (List.Perm.swap a b bs)

theorem sortByDateDesc_foldl_perm (l : List Item) : ∀ acc : List Item,
    List.Perm (l.foldl (fun acc a => insertByDateDesc a acc) acc) (l ++ acc) := by
  induction l with
  | nil => intro acc; exact List.Perm.refl _
  | cons a l ih =>
    intro acc
    have h1 := ih (insertByDateDesc a acc)
    have h2 : List.Perm (l ++ insertByDateDesc a acc) (l ++ (a :: acc)) :=
      List.Perm.append_left l (insertByDateDesc_perm a acc)
    exact h1.trans (h2.trans List.perm_middle)

theorem sortByDateDesc_perm (l : List Item) : List.Perm (sortByDateDesc l) l := by
  simpa using sortByDateDesc_foldl_perm l []

/-! ### Case analysis of one candidate step in the statement builder -/

theorem stmtProcessCandidate_eq (c n : String) (s e : Date) (rule : RecurringRule)
    (acc : List Item × Int) (d : Date) :
    (stmtProcessCandidate c n s e rule acc d = acc)
    ∨ (dateLe s d = true ∧ dateLt d e = true ∧ afterRuleEnd rule d = false
        ∧ acc.1.any (stmtDedupHit rule.id d) = false
        ∧ stmtProcessCandidate c n s e rule acc d
            = (acc.1 ++ [Item.virt (mkVirtual c rule d n)], acc.2 + rule.amount)) := by
  cases h1 : (dateLe s d && dateLt d e) with
  | false => left; simp [stmtProcessCandidate, h1]
  | true =>
    cases h2 : afterRuleEnd rule d with
    | true => left; simp [stmtProcessCandidate, h1, h2]
    | false =>
      cases h3 : acc.1.any (stmtDedupHit rule.id d) with
      | true => left; simp [stmtProcessCandidate, h1, h2, h3]
      | false =>
        right
        have h1' := h1
        rw [Bool.and_eq_true] at h1'
        exact ⟨h1'.1, h1'.2, rfl, rfl, by simp [stmtProcessCandidate, h1, h2, h3]⟩

/-! ### Deduplication-key invariant of the statement fold (for C1) -/

theorem stmt_cand_step_key (rid : String) (dk : Date) (c n : String) (s e : Date)
    (rule : RecurringRule) (acc : List Item × Int) (d : Date)
    (h : acc.1.any (stmtDedupHit rid dk) = true) :
    ((stmtProcessCandidate c n s e rule acc d).1.countP (stmtDedupHit rid dk)
        = acc.1.countP (stmtDedupHit rid dk))
    ∧ (stmtProcessCandidate c n s e rule acc d).1.any (stmtDedupHit rid dk) = true
    ∧ ∀ it ∈ (stmtProcessCandidate c n s e rule acc d).1,
        it ∈ acc.1 ∨ stmtDedupHit rid dk it = false := by
  rcases stmtProcessCandidate_eq c n s e rule acc d with heq | ⟨_, _, _, hded, heq⟩
  · rw [heq]; exact ⟨rfl, h, fun it hit => Or.inl hit⟩
  · rw [heq]
    have hv : stmtDedupHit rid dk (Item.virt (mkVirtual c rule d n)) = false := by
      cases hvv : stmtDedupHit rid dk (Item.virt (mkVirtual c rule d n)) with
      | false => rfl
      | true =>
        exfalso
        have hvv' : (rule.id == rid && d == dk) = true := by
          simpa [stmtDedupHit, Item.dedupRuleId, Item.date, mkVirtual] using hvv
        rw [Bool.and_eq_true, beq_iff_eq, beq_iff_eq] at hvv'
        rw [hvv'.1, hvv'.2] at hded
        rw [hded] at h
        cases h
    constructor
    · simp [List.countP_append, hv]
    constructor
    · simp [List.any_append, h]
    · intro it hit
      rcases List.mem_append.mp hit with hmem | hsing
      · exact Or.inl hmem
      · rw [List.mem_singleton.mp hsing]
        exact Or.inr hv

theorem stmt_cand_fold_key (rid : String) (dk : Date) (c n : String) (s e : Date)
    (rule : RecurringRule) : ∀ (ds : List Date) (acc : List Item × Int),
    acc.1.any (stmtDedupHit rid dk) = true →
    ((ds.foldl (stmtProcessCandidate c n s e rule) acc).1.countP (stmtDedupHit rid dk)
        = acc.1.countP (stmtDedupHit rid dk))
    ∧ (ds.foldl (stmtProcessCandidate c n s e rule) acc).1.any (stmtDedupHit rid dk) = true
    ∧ ∀ it ∈ (ds.foldl (stmtProcessCandidate c n s e rule) acc).1,
        it ∈ acc.1 ∨ stmtDedupHit rid dk it = false := by
  intro ds
  induction ds with
  | nil => intro acc h; exact ⟨rfl, h, fun it hit => Or.inl hit⟩
  | cons d ds ih =>
    intro acc h
    simp only [List.foldl_cons]
    obtain ⟨hc, ha, hm⟩ := stmt_cand_step_key rid dk c n s e rule acc d h
    obtain ⟨hc', ha', hm'⟩ := ih (stmtProcessCandidate c n s e rule acc d) ha
    refine ⟨hc'.trans hc, ha', fun it hit => ?_⟩
    rcases hm' it hit with hmem | hf
    · rcases hm it hmem with hmem2 | hf2
      · exact Or.inl hmem2
      · exact Or.inr hf2
    · exact Or.inr hf

theorem stmt_rule_step_key (rid : String) (dk : Date) (c n : String) (s e : Date)
    (acc : List Item × Int) (rule : RecurringRule)
    (h : acc.1.any (stmtDedupHit rid dk) = true) :
    ((stmtProcessRule c n s e acc rule).1.countP (stmtDedupHit rid dk)
        = acc.1.countP (stmtDedupHit rid dk))
    ∧ (stmtProcessRule c n s e acc rule).1.any (stmtDedupHit rid dk) = true
    ∧ ∀ it ∈ (stmtProcessRule c n s e acc rule).1,
        it ∈ acc.1 ∨ stmtDedupHit rid dk it = false := by
  unfold stmtProcessRule
  cases extractByMonthDay rule.rrule with
  | none => exact ⟨rfl, h, fun it hit => Or.inl hit⟩
  | some day => exact stmt_cand_fold_key rid dk c n s e rule _ acc h

theorem stmt_rules_fold_key (rid : String) (dk : Date) (c n : String) (s e : Date) :
    ∀ (rules : List RecurringRule) (acc : List Item × Int),
    acc.1.any (stmtDedupHit rid dk) = true →
    ((rules.foldl (stmtProcessRule c n s e) acc).1.countP (stmtDedupHit rid dk)
        = acc.1.countP (stmtDedupHit rid dk))
    ∧ ∀ it ∈ (rules.foldl (stmtProcessRule c n s e) acc).1,
        it ∈ acc.1 ∨ stmtDedupHit rid dk it = false := by
  intro rules
  induction rules with
  | nil => intro acc h; exact ⟨rfl, fun it hit => Or.inl hit⟩
  | cons r rules ih =>
    intro acc h
    simp only [List.foldl_cons]
    obtain ⟨hc, ha, hm⟩ := stmt_rule_step_key rid dk c n s e acc r h
    obtain ⟨hc', hm'⟩ := ih (stmtProcessRule c n s e acc r) ha
    refine ⟨hc'.trans hc, fun it hit => ?_⟩
    rcases hm' it hit with hmem | hf
    · rcases hm it hmem with hmem2 | hf2
      · exact Or.inl hmem2
      · exact Or.inr hf2
    · exact Or.inr hf

/-! ### The running total always equals the sum of the item amounts -/

theorem stmt_cand_step_total (c n : String) (s e : Date) (rule : RecurringRule)
    (acc : List Item × Int) (d : Date) (h : acc.2 = (acc.1.map Item.amount).sum) :
    (stmtProcessCandidate c n s e rule acc d).2
      = ((stmtProcessCandidate c n s e rule acc d).1.map Item.amount).sum := by
  rcases stmtProcessCandidate_eq c n s e rule acc d with heq | ⟨_, _, _, _, heq⟩
  · rw [heq]; exact h
  · rw [heq]
    simp [h, Item.amount, mkVirtual]

theorem stmt_cand_fold_total (c n : String) (s e : Date) (rule : RecurringRule) :
    ∀ (ds : List Date) (acc : List Item × Int),
    acc.2 = (acc.1.map Item.amount).sum →
    (ds.foldl (stmtProcessCandidate c n s e rule) acc).2
      = ((ds.foldl (stmtProcessCandidate c n s e rule) acc).1.map Item.amount).sum := by
  intro ds
  induction ds with
  | nil => intro acc h; exact h
  | cons d ds ih =>
    intro acc h
    simp only [List.foldl_cons]
    exact ih _ (stmt_cand_step_total c n s e rule acc d h)

theorem stmt_rules_fold_total (c n : String) (s e : Date) :
    ∀ (rules : List RecurringRule) (acc : List Item × Int),
    acc.2 = (acc.1.map Item.amount).sum →
    (rules.foldl (stmtProcessRule c n s e) acc).2
      = ((rules.foldl (stmtProcessRule c n s e) acc).1.map Item.amount).sum := by
  intro rules
  induction rules with
  | nil => intro acc h; exact h
  | cons r rules ih =>
    intro acc h
    simp only [List.foldl_cons]
    refine ih _ ?_
    unfold stmtProcessRule
    cases extractByMonthDay r.rrule with
    | none => exact h
    | some day => exact stmt_cand_fold_total c n s e r _ acc h

/-! ### Shape of the items added by the statement fold (for C3) -/

theorem stmt_cand_fold_shape (c n : String) (s e : Date) (rule : RecurringRule) :
    ∀ (ds : List Date) (acc : List Item × Int),
    ∀ it ∈ (ds.foldl (stmtProcessCandidate c n s e rule) acc).1,
      it ∈ acc.1 ∨ ∃ d, it = Item.virt (mkVirtual c rule d n)
        ∧ dateLe s d = true ∧ dateLt d e = true ∧ afterRuleEnd rule d = false := by
  intro ds
  induction ds with
  | nil => intro acc it hit; exact Or.inl hit
  | cons d ds ih =>
    intro acc it hit
    simp only [List.foldl_cons] at hit
    rcases ih _ it hit with hmem | hnew
    · rcases stmtProcessCandidate_eq c n s e rule acc d with heq | ⟨hle, hlt, hend, _, heq⟩
      · rw [heq] at hmem; exact Or.inl hmem
      · rw [heq] at hmem
        rcases List.mem_append.mp hmem with hmem2 | hsing
        · exact Or.inl hmem2
        · exact Or.inr ⟨d, List.mem_singleton.mp hsing, hle, hlt, hend⟩
    · exact Or.inr hnew

theorem stmt_rules_fold_shape (c n : String) (s e : Date) :
    ∀ (rules : List RecurringRule) (acc : List Item × Int),
    ∀ it ∈ (rules.foldl (stmtProcessRule c n s e) acc).1,
      it ∈ acc.1 ∨ ∃ rule ∈ rules, ∃ d, it = Item.virt (mkVirtual c rule d n)
        ∧ dateLe s d = true ∧ dateLt d e = true ∧ afterRuleEnd rule d = false := by
  intro rules
  induction rules with
  | nil => intro acc it hit; exact Or.inl hit
  | cons r rules ih =>
    intro acc it hit
    simp only [List.foldl_cons] at hit
    rcases ih _ it hit with hmem | hnew
    · have hr : ∀ jt ∈ (stmtProcessRule c n s e acc r).1,
          jt ∈ acc.1 ∨ ∃ d, jt = Item.virt (mkVirtual c r d n)
            ∧ dateLe s d = true ∧ dateLt d e = true ∧ afterRuleEnd r d = false := by
        intro jt hjt
        unfold stmtProcessRule at hjt
        cases hday : extractByMonthDay r.rrule with
        | none => rw [hday] at hjt; exact Or.inl hjt
        | some day =>
          rw [hday] at hjt
          exact stmt_cand_fold_shape c n s e r _ acc jt hjt
      rcases hr it hmem with hmem2 | ⟨d, hd⟩
      · exact Or.inl hmem2
      · exact Or.inr ⟨r, List.mem_cons_self r rules, d, hd⟩
    · rcases hnew with ⟨rule, hrule, rest⟩
      exact Or.inr ⟨rule, List.mem_cons_of_mem r hrule, rest⟩

/-! ### At most two virtual items per rule per statement (for C3 amended) -/

/-- `it` is the virtual item of the rule with id `rid`. -/
def isVirtOfRule (rid : String) : Item → Bool
  | .virt v => v.recurring_rule_id == rid
  | .real _ => false

theorem candidatesFor_length_le (s e : Date) (day : Nat) :
    (candidatesFor s e day).length ≤ 2 := by
  unfold candidatesFor
  cases h1 : mkDate s.year s.month day <;>
    cases h2 : mkDate e.year e.month day <;>
    (repeat' split) <;> simp

theorem stmt_cand_step_virtcount (rid : String) (c n : String) (s e : Date)
    (rule : RecurringRule) (acc : List Item × Int) (d : Date) :
    (stmtProcessCandidate c n s e rule acc d).1.countP (isVirtOfRule rid)
      ≤ acc.1.countP (isVirtOfRule rid) + (if rule.id = rid then 1 else 0) := by
  rcases stmtProcessCandidate_eq c n s e rule acc d with heq | ⟨_, _, _, _, heq⟩
  · rw [heq]; exact Nat.le_add_right _ _
  · rw [heq]
    have hv : isVirtOfRule rid (Item.virt (mkVirtual c rule d n))
        = (rule.id == rid) := by
      simp [isVirtOfRule, mkVirtual]
    by_cases hr : rule.id = rid
    · simp [List.countP_append, hv, hr]
    · have hne : (rule.id == rid) = false := by simp [hr]
      simp [List.countP_append, hv, hne, hr]

theorem stmt_cand_fold_virtcount (rid : String) (c n : String) (s e : Date)
    (rule : RecurringRule) : ∀ (ds : List Date) (acc : List Item × Int),
    (ds.foldl (stmtProcessCandidate c n s e rule) acc).1.countP (isVirtOfRule rid)
      ≤ acc.1.countP (isVirtOfRule rid) + (if rule.id = rid then ds.length else 0) := by
  intro ds
  induction ds with
  | nil => intro acc; simp
  | cons d ds ih =>
    intro acc
    simp only [List.foldl_cons]
    have h1 := ih (stmtProcessCandidate c n s e rule acc d)
    have h2 := stmt_cand_step_virtcount rid c n s e rule acc d
    by_cases hr : rule.id = rid <;> simp [hr] at h1 h2 ⊢ <;> omega

theorem stmt_rules_fold_virtcount (rid : String) (c n : String) (s e : Date) :
    ∀ (rules : List RecurringRule) (acc : List Item × Int),
    (rules.foldl (stmtProcessRule c n s e) acc).1.countP (isVirtOfRule rid)
      ≤ acc.1.countP (isVirtOfRule rid)
        + 2 * rules.countP (fun r => r.id == rid) := by
  intro rules
  induction rules with
  | nil => intro acc; simp
  | cons r rules ih =>
    intro acc
    simp only [List.foldl_cons]
    have h1 := ih (stmtProcessRule c n s e acc r)
    have h2 : (stmtProcessRule c n s e acc r).1.countP (isVirtOfRule rid)
        ≤ acc.1.countP (isVirtOfRule rid) + (if r.id = rid then 2 else 0) := by
      unfold stmtProcessRule
      cases extractByMonthDay r.rrule with
      | none => exact Nat.le_add_right _ _
      | some day =>
        have h3 := stmt_cand_fold_virtcount rid c n s e r (candidatesFor s e day) acc
        have h4 := candidatesFor_length_le s e day
        by_cases hr : r.id = rid <;> simp [hr] at h3 ⊢ <;> omega
    rw [List.countP_cons]
    by_cases hr : r.id = rid
    · rw [if_pos (by simp [hr] : ((fun r : RecurringRule => r.id == rid) r = true))]
      rw [if_pos hr] at h2
      omega
    · rw [if_neg (by simp [hr] : ¬((fun r : RecurringRule => r.id == rid) r = true))]
      rw [if_neg hr] at h2
      omega

/-! ### Projection helpers -/

theorem foldl_add_eq_sum (f : RecurringRule → Int) :
    ∀ (rules : List RecurringRule) (base : Int),
    rules.foldl (fun tot r => tot + f r) base = base + (rules.map f).sum := by
  intro rules
  induction rules with
  | nil => intro base; simp
  | cons r rules ih =>
    intro base
    simp only [List.foldl_cons, List.map_cons, List.sum_cons]
    rw [ih (base + f r)]
    ring

/-- The `(contribution, added)` accumulator of the projector's candidate
loop is always `(0, false)` or `(rule.amount, true)`. -/
theorem proj_fold_invariant (rule : RecurringRule) (s e : Date)
    (qt : List Transaction) : ∀ (ds : List Date) (acc : Int × Bool),
    (acc = (0, false) ∨ acc = (rule.amount, true)) →
    (ds.foldl (projCandidateStep rule s e qt) acc = (0, false)
      ∨ ds.foldl (projCandidateStep rule s e qt) acc = (rule.amount, true)) := by
  intro ds
  induction ds with
  | nil => intro acc h; exact h
  | cons d ds ih =>
    intro acc h
    simp only [List.foldl_cons]
    refine ih _ ?_
    unfold projCandidateStep
    rcases h with h | h <;> rw [h] <;>
      (repeat' split) <;> simp_all

/-- A rule contributes either nothing or exactly its amount to a
projected month. -/
theorem ruleContribution_cases (rule : RecurringRule) (s e : Date)
    (qt : List Transaction) :
    ruleContribution rule s e qt = 0 ∨ ruleContribution rule s e qt = rule.amount := by
  cases hd : extractByMonthDay rule.rrule with
  | none => simp [ruleContribution, hd]
  | some day =>
    rcases proj_fold_invariant rule s e qt (projCandidates s e day) (0, false)
        (Or.inl rfl) with h | h <;>
      simp [ruleContribution, hd, h]

/-- A rule without a `BYMONTHDAY` component contributes nothing to a
projected month. -/
theorem ruleContribution_none (rule : RecurringRule) (s e : Date)
    (qt : List Transaction) (h : extractByMonthDay rule.rrule = none) :
    ruleContribution rule s e qt = 0 := by
  unfold ruleContribution
  rw [h]

/-- A rule without a `BYMONTHDAY` component is skipped by the statement
builder's rule loop. -/
theorem stmtProcessRule_none (c n : String) (s e : Date) (acc : List Item × Int)
    (rule : RecurringRule) (h : extractByMonthDay rule.rrule = none) :
    stmtProcessRule c n s e acc rule = acc := by
  unfold stmtProcessRule
  rw [h]

/-! ### Payment helpers -/

/-- After a payment pass no row still matches the payment query. -/
theorem payInvoiceQuery_after (u c : String) (s e : Date) (t : Transaction) :
    payInvoiceQuery u c s e
      (if payInvoiceQuery u c s e t then { t with status := "PAID" } else t) = false := by
  by_cases h : payInvoiceQuery u c s e t = true
  · rw [if_pos h]
    simp [payInvoiceQuery, txnInPeriodQuery]
  · rw [if_neg h]
    exact Bool.eq_false_iff.mpr h

/-- Strict date order contradicts the reverse non-strict order. -/
theorem dateLt_not_le (a b : Date) (h : dateLt a b = true) : dateLe b a = false := by
  cases hc : dateLe b a with
  | false => rfl
  | true =>
    exfalso
    rw [dateLt_iff] at h
    rw [dateLe_iff] at hc
    omega

/-! ## Claim theorems -/

/-- C2: for every closing day and target month the statement period is
`[safeDate(prevMonth, closingDay), safeDate(targetMonth, closingDay))`,
the fields the statement response exposes are exactly that interval, and
in particular `closing_day = 10`, `month = 2024-03` produces
`{start: 2024-02-10, end: 2024-03-10}`. -/
theorem C2_statement_period :
    (∀ (closingDay : Nat) (target : YM),
      statementPeriod closingDay target
        = (get_date_safe target.prev.year target.prev.month closingDay,
           get_date_safe target.year target.month closingDay))
    ∧ statementPeriod 10 ⟨2024, 3⟩ = (⟨2024, 2, 10⟩, ⟨2024, 3, 10⟩)
    ∧ (∀ (card : CreditCard) (month : YM) (t : List Transaction)
        (r : List RecurringRule) (today : Date) (now : String),
        (buildStatement card month t r today now).period_start
            = (statementPeriod card.closing_day month).1
        ∧ (buildStatement card month t r today now).period_end
            = (statementPeriod card.closing_day month).2) :=
  ⟨fun _ _ => rfl, by decide, fun _ _ _ _ _ _ => ⟨rfl, rfl⟩⟩

/-- C5: for every closing day in `[1, 31]` and every valid target month
the computed period is non-empty: `start < end`. -/
theorem C5_period_nonempty (closingDay : Nat) (target : YM)
    (_hc1 : 1 ≤ closingDay) (_hc2 : closingDay ≤ 31)
    (hy : 1 ≤ target.year) (hm1 : 1 ≤ target.month) (hm2 : target.month ≤ 12) :
    dateLt (statementPeriod closingDay target).1
      (statementPeriod closingDay target).2 = true := by
  rcases target with ⟨y, m⟩
  simp only [statementPeriod, YM.prev] at *
  by_cases h : m = 1
  · subst h
    simp only [show ((1 : Nat) == 1) = true from rfl, if_true]
    rw [dateLt_iff]
    rw [get_date_safe_year, get_date_safe_month, get_date_safe_year, get_date_safe_month]
    left
    omega
  · have hb : (m == 1) = false := by simp [h]
    simp only [hb, Bool.false_eq_true, if_false]
    rw [dateLt_iff]
    rw [get_date_safe_year, get_date_safe_month, get_date_safe_year, get_date_safe_month]
    right
    exact ⟨rfl, Or.inl (by omega)⟩

/-- C5 witness: concrete non-degenerate instance (clamping at both ends:
closing day 31, February start). -/
theorem C5_period_nonempty_witness :
    dateLt (statementPeriod 31 ⟨2024, 3⟩).1 (statementPeriod 31 ⟨2024, 3⟩).2 = true :=
  C5_period_nonempty 31 ⟨2024, 3⟩ (by decide) (by decide) (by decide) (by decide) (by decide)

/-- C6: the statement builder is a pure function of the card, month,
persisted rows, rules and clock — two runs over equal inputs (same
`today`, same timestamp) produce identical output in every field. -/
theorem C6_statement_deterministic (card : CreditCard) (month : YM)
    (t1 t2 : List Transaction) (r1 r2 : List RecurringRule) (today : Date)
    (now : String) (ht : t1 = t2) (hr : r1 = r2) :
    buildStatement card month t1 r1 today now
      = buildStatement card month t2 r2 today now := by
  rw [ht, hr]

/-- C6 witness. -/
theorem C6_statement_deterministic_witness :
    buildStatement card10 ⟨2024, 3⟩ [txn15] [rule15] ⟨2024, 3, 15⟩ "now"
      = buildStatement card10 ⟨2024, 3⟩ [txn15] [rule15] ⟨2024, 3, 15⟩ "now" :=
  C6_statement_deterministic card10 ⟨2024, 3⟩ [txn15] [txn15] [rule15] [rule15]
    ⟨2024, 3, 15⟩ "now" rfl rfl

/-- C9: statement status is OPEN while `today < end`, CLOSED once
`today >= end`, and OVERDUE once additionally `today > due_date` (the
clamped due day in the period's end month); concretely, for
`end = 2024-03-10` and `due = 2024-03-20`, `today = 2024-03-15` gives
CLOSED and `today = 2024-03-25` gives OVERDUE. -/
theorem C9_status (card : CreditCard) (month : YM) (t : List Transaction)
    (r : List RecurringRule) (today : Date) (now : String) :
    (dateLt today (statementPeriod card.closing_day month).2 = true →
      (buildStatement card month t r today now).status = "OPEN")
    ∧ (dateLe (statementPeriod card.closing_day month).2 today = true →
        dateLt (get_date_safe month.year month.month card.due_day) today = false →
        (buildStatement card month t r today now).status = "CLOSED")
    ∧ (dateLe (statementPeriod card.closing_day month).2 today = true →
        dateLt (get_date_safe month.year month.month card.due_day) today = true →
        (buildStatement card month t r today now).status = "OVERDUE")
    ∧ (buildStatement card10 ⟨2024, 3⟩ [] [] ⟨2024, 3, 15⟩ "now").status = "CLOSED"
    ∧ (buildStatement card10 ⟨2024, 3⟩ [] [] ⟨2024, 3, 25⟩ "now").status = "OVERDUE" := by
  refine ⟨?_, ?_, ?_, by decide, by decide⟩
  · intro h
    have hle := dateLt_not_le today (statementPeriod card.closing_day month).2 h
    simp [buildStatement, statementStatus, hle]
  · intro h1 h2
    simp [buildStatement, statementStatus, h1, h2]
  · intro h1 h2
    simp [buildStatement, statementStatus, h1, h2]

/-- C9 witness: before the closing date the statement is OPEN. -/
theorem C9_status_witness :
    (buildStatement card10 ⟨2024, 3⟩ [] [] ⟨2024, 3, 5⟩ "now").status = "OPEN" :=
  (C9_status card10 ⟨2024, 3⟩ [] [] ⟨2024, 3, 5⟩ "now").1 (by decide)

/-- The payment selector of a given card and month. -/
def paySel (card : CreditCard) (month : YM) : Transaction → Bool :=
  payInvoiceQuery card.user_id card.id (statementPeriod card.closing_day month).1
    (statementPeriod card.closing_day month).2

/-- Rows untouched by the selector keep the database unchanged. -/
theorem map_pay_id (sel : Transaction → Bool) (l : List Transaction)
    (h : ∀ t ∈ l, sel t = false) :
    l.map (fun t => if sel t then { t with status := "PAID" } else t) = l := by
  induction l with
  | nil => rfl
  | cons a l ih =>
    simp only [List.map_cons]
    rw [h a (List.mem_cons_self a l), if_neg (by simp)]
    rw [ih (fun t ht => h t (List.mem_cons_of_mem a ht))]

/-- C7: `pay_invoice` transitions exactly the PENDING card transactions
dated inside the period to PAID and returns their count; a repeated call
returns count 0 and leaves every row (in particular every row already
PAID) unchanged. -/
theorem C7_pay_invoice (card : CreditCard) (month : YM) (db : List Transaction) :
    ((payInvoice card month db).2 = db.countP (paySel card month))
    ∧ (∀ t ∈ db, paySel card month t = true →
        { t with status := "PAID" } ∈ (payInvoice card month db).1)
    ∧ (∀ t ∈ db, paySel card month t = false → t ∈ (payInvoice card month db).1)
    ∧ ((payInvoice card month db).1.length = db.length)
    ∧ (∀ t ∈ (payInvoice card month db).1, paySel card month t = false)
    ∧ payInvoice card month (payInvoice card month db).1
        = ((payInvoice card month db).1, 0) := by
  have hres : (payInvoice card month db).1
      = db.map (fun t => if paySel card month t then { t with status := "PAID" } else t) :=
    rfl
  have hafter : ∀ t ∈ (payInvoice card month db).1, paySel card month t = false := by
    intro t ht
    rw [hres] at ht
    rcases List.mem_map.mp ht with ⟨u, _, hu⟩
    rw [← hu]
    exact payInvoiceQuery_after card.user_id card.id _ _ u
  refine ⟨(List.countP_eq_length_filter _ _).symm, ?_, ?_,
    by rw [hres]; exact List.length_map _ _, hafter, ?_⟩
  · intro t ht hsel
    rw [hres]
    refine List.mem_map.mpr ⟨t, ht, ?_⟩
    simp [hsel]
  · intro t ht hsel
    rw [hres]
    refine List.mem_map.mpr ⟨t, ht, ?_⟩
    simp [hsel]
  · have h2 : payInvoice card month (payInvoice card month db).1
        = ((payInvoice card month db).1.map
            (fun t => if paySel card month t then { t with status := "PAID" } else t),
           ((payInvoice card month db).1.filter (paySel card month)).length) := rfl
    rw [h2, map_pay_id _ _ hafter,
      List.filter_eq_nil_iff.mpr (fun t ht => by simp [hafter t ht])]
    rfl

/-- C7 witness: one PENDING row in the period transitions and is
counted; spec payment scenario in miniature. -/
theorem C7_pay_invoice_witness :
    ({ txnPending with status := "PAID" } ∈ (payInvoice card10 ⟨2024, 3⟩ [txnPending]).1)
    ∧ (payInvoice card10 ⟨2024, 3⟩ [txnPending]).2 = 1 := by
  refine ⟨(C7_pay_invoice card10 ⟨2024, 3⟩ [txnPending]).2.1 txnPending
    (by decide) (by decide), ?_⟩
  rw [(C7_pay_invoice card10 ⟨2024, 3⟩ [txnPending]).1]
  decide

/-- C8: the projection returns exactly 12 entries, the `i`-th entry
being the projected statement of the `i`-th month counted from the
current month; each month's total is the period's transaction total plus
one contribution per active rule, and every rule's contribution is
either 0 or its amount — never more. -/
theorem C8_projection (card : CreditCard) (db_t : List Transaction)
    (db_r : List RecurringRule) (today : Date) :
    ((getProjection card db_t db_r today).length = 12)
    ∧ (∀ i, i < 12 → (getProjection card db_t db_r today)[i]?
        = some (projectionEntry card db_t db_r (YM.addMonths ⟨today.year, today.month⟩ i)))
    ∧ (∀ i, i < 12 → ((getProjection card db_t db_r today)[i]?.map ProjEntry.month)
        = some (YM.addMonths ⟨today.year, today.month⟩ i))
    ∧ (∀ target : YM, (projectionEntry card db_t db_r target).total
        = ((queryPeriodTxns card.user_id card.id
              (statementPeriod card.closing_day target).1
              (statementPeriod card.closing_day target).2 db_t).map Transaction.amount).sum
          + ((queryActiveRules card.user_id card.id db_r).map
              (fun rule => ruleContribution rule
                (statementPeriod card.closing_day target).1
                (statementPeriod card.closing_day target).2
                (queryPeriodTxns card.user_id card.id
                  (statementPeriod card.closing_day target).1
                  (statementPeriod card.closing_day target).2 db_t))).sum)
    ∧ (∀ (rule : RecurringRule) (s e : Date) (qt : List Transaction),
        ruleContribution rule s e qt = 0 ∨ ruleContribution rule s e qt = rule.amount) := by
  have hget : ∀ i, i < 12 → (getProjection card db_t db_r today)[i]?
      = some (projectionEntry card db_t db_r (YM.addMonths ⟨today.year, today.month⟩ i)) := by
    intro i hi
    unfold getProjection
    rw [List.getElem?_map, List.getElem?_range hi]
    rfl
  refine ⟨by simp [getProjection], hget, ?_, ?_, ruleContribution_cases⟩
  · intro i hi
    rw [hget i hi]
    rfl
  · intro target
    simp only [projectionEntry]
    exact foldl_add_eq_sum _ _ _

/-- C8 witness: the first projected entry is the current month's. -/
theorem C8_projection_witness :
    (getProjection card10 [] [rule15] ⟨2024, 3, 5⟩)[0]?
      = some (projectionEntry card10 [] [rule15] (YM.addMonths ⟨2024, 3⟩ 0)) :=
  (C8_projection card10 [] [rule15] ⟨2024, 3, 5⟩).2.1 0 (by decide)

/-- Appending a rule that the active-rule query keeps, or dropping one
it filters out, at the end of the rule list. -/
theorem queryActiveRules_append_singleton (u c : String)
    (db_r : List RecurringRule) (rule : RecurringRule) :
    queryActiveRules u c (db_r ++ [rule]) = queryActiveRules u c db_r
    ∨ queryActiveRules u c (db_r ++ [rule]) = queryActiveRules u c db_r ++ [rule] := by
  unfold queryActiveRules
  rw [List.filter_append]
  cases h : (fun r : RecurringRule =>
      r.user_id == u && r.credit_card_id == some c && r.active) rule with
  | false =>
    left
    rw [List.filter_cons, if_neg (by simp [h]), List.filter_nil, List.append_nil]
  | true =>
    right
    rw [List.filter_cons, if_pos (by simp [h]), List.filter_nil]

/-- C10: a rule whose recurrence string has no `BYMONTHDAY` component is
skipped entirely: adding it to the database changes neither any
statement nor any projection. -/
theorem C10_no_bymonthday_skipped (card : CreditCard) (month : YM)
    (db_t : List Transaction) (db_r : List RecurringRule) (rule : RecurringRule)
    (today : Date) (now : String) (h : extractByMonthDay rule.rrule = none) :
    buildStatement card month db_t (db_r ++ [rule]) today now
      = buildStatement card month db_t db_r today now
    ∧ getProjection card db_t (db_r ++ [rule]) today
      = getProjection card db_t db_r today := by
  have hfold : ∀ (s e : Date) (acc : List Item × Int),
      (queryActiveRules card.user_id card.id (db_r ++ [rule])).foldl
          (stmtProcessRule card.id now s e) acc
        = (queryActiveRules card.user_id card.id db_r).foldl
          (stmtProcessRule card.id now s e) acc := by
    intro s e acc
    rcases queryActiveRules_append_singleton card.user_id card.id db_r rule with hq | hq
    · rw [hq]
    · rw [hq, List.foldl_append, List.foldl_cons, List.foldl_nil,
        stmtProcessRule_none card.id now s e _ rule h]
  have hcontrib : ∀ (s e : Date) (qt : List Transaction) (base : Int),
      (queryActiveRules card.user_id card.id (db_r ++ [rule])).foldl
          (fun tot r => tot + ruleContribution r s e qt) base
        = (queryActiveRules card.user_id card.id db_r).foldl
          (fun tot r => tot + ruleContribution r s e qt) base := by
    intro s e qt base
    rcases queryActiveRules_append_singleton card.user_id card.id db_r rule with hq | hq
    · rw [hq]
    · rw [hq, List.foldl_append, List.foldl_cons, List.foldl_nil,
        ruleContribution_none rule s e qt h, add_zero]
  constructor
  · simp only [buildStatement]
    rw [hfold]
  · unfold getProjection
    refine List.map_congr_left fun i _ => ?_
    simp only [projectionEntry]
    rw [hcontrib]

/-- C10 witness: a weekly rule leaves the 2024-03 statement of `card10`
untouched. -/
theorem C10_no_bymonthday_skipped_witness :
    buildStatement card10 ⟨2024, 3⟩ [txn15] ([rule15] ++ [ruleWeekly]) ⟨2024, 3, 15⟩ "now"
      = buildStatement card10 ⟨2024, 3⟩ [txn15] [rule15] ⟨2024, 3, 15⟩ "now" :=
  (C10_no_bymonthday_skipped card10 ⟨2024, 3⟩ [txn15] [rule15] ruleWeekly
    ⟨2024, 3, 15⟩ "now" (by decide)).1

/-- C1: if exactly one persisted transaction in the queried period
carries the dedup key `(R, d)` — rule id `R` via the dedup accessor and
date `d` — then the statement contains exactly one item with that key,
that item is the real transaction (never a virtual projection), and the
total is precisely the sum of the item amounts, so the transaction's
amount is counted exactly once. This holds whether or not rule `R` also
produces candidate occurrence `d`. -/
theorem C1_dedup (card : CreditCard) (month : YM) (db_t : List Transaction)
    (db_r : List RecurringRule) (today : Date) (now : String) (rid : String) (dk : Date)
    (h1 : ((queryPeriodTxns card.user_id card.id
        (statementPeriod card.closing_day month).1
        (statementPeriod card.closing_day month).2 db_t).map Item.real).countP
        (stmtDedupHit rid dk) = 1) :
    ((buildStatement card month db_t db_r today now).items.countP (stmtDedupHit rid dk) = 1)
    ∧ (∀ it ∈ (buildStatement card month db_t db_r today now).items,
        stmtDedupHit rid dk it = true → ∃ t : Transaction, it = Item.real t)
    ∧ ((buildStatement card month db_t db_r today now).total
        = ((buildStatement card month db_t db_r today now).items.map Item.amount).sum) := by
  simp only [buildStatement]
  have hany : (((queryPeriodTxns card.user_id card.id
      (statementPeriod card.closing_day month).1
      (statementPeriod card.closing_day month).2 db_t).map Item.real).any
      (stmtDedupHit rid dk)) = true := by
    rw [List.any_eq_true]
    have hpos : 0 < ((queryPeriodTxns card.user_id card.id
        (statementPeriod card.closing_day month).1
        (statementPeriod card.closing_day month).2 db_t).map Item.real).countP
        (stmtDedupHit rid dk) := by omega
    rcases List.countP_pos_iff.mp hpos with ⟨a, ha, hpa⟩
    exact ⟨a, ha, hpa⟩
  obtain ⟨hcount, hmem⟩ := stmt_rules_fold_key rid dk card.id now
    (statementPeriod card.closing_day month).1 (statementPeriod card.closing_day month).2
    (queryActiveRules card.user_id card.id db_r)
    ((queryPeriodTxns card.user_id card.id
        (statementPeriod card.closing_day month).1
        (statementPeriod card.closing_day month).2 db_t).map Item.real,
     ((queryPeriodTxns card.user_id card.id
        (statementPeriod card.closing_day month).1
        (statementPeriod card.closing_day month).2 db_t).map Transaction.amount).sum)
    hany
  have hperm := sortByDateDesc_perm ((queryActiveRules card.user_id card.id db_r).foldl
    (stmtProcessRule card.id now (statementPeriod card.closing_day month).1
      (statementPeriod card.closing_day month).2)
    ((queryPeriodTxns card.user_id card.id
        (statementPeriod card.closing_day month).1
        (statementPeriod card.closing_day month).2 db_t).map Item.real,
     ((queryPeriodTxns card.user_id card.id
        (statementPeriod card.closing_day month).1
        (statementPeriod card.closing_day month).2 db_t).map Transaction.amount).sum)).1
  refine ⟨?_, ?_, ?_⟩
  · rw [hperm.countP_eq, hcount, h1]
  · intro it hit hkey
    have hit' := hperm.mem_iff.mp hit
    rcases hmem it hit' with hmem0 | hfalse
    · rcases List.mem_map.mp hmem0 with ⟨t, _, ht⟩
      exact ⟨t, ht.symm⟩
    · rw [hfalse] at hkey
      cases hkey
  · have htot := stmt_rules_fold_total card.id now
      (statementPeriod card.closing_day month).1 (statementPeriod card.closing_day month).2
      (queryActiveRules card.user_id card.id db_r)
      ((queryPeriodTxns card.user_id card.id
          (statementPeriod card.closing_day month).1
          (statementPeriod card.closing_day month).2 db_t).map Item.real,
       ((queryPeriodTxns card.user_id card.id
          (statementPeriod card.closing_day month).1
          (statementPeriod card.closing_day month).2 db_t).map Transaction.amount).sum)
      (by rw [List.map_map]; rfl)
    rw [htot]
    exact ((hperm.map Item.amount).sum_eq).symm

/-- C1 witness: spec scenario 3 — a real PAID materialized occurrence of
the day-15 rule dated 2024-02-15 is the statement's only `(r1, 2024-02-15)`
item. -/
theorem C1_dedup_witness :
    (((queryPeriodTxns card10.user_id card10.id
        (statementPeriod card10.closing_day ⟨2024, 3⟩).1
        (statementPeriod card10.closing_day ⟨2024, 3⟩).2 [txn15]).map Item.real).countP
        (stmtDedupHit "r1" ⟨2024, 2, 15⟩) = 1)
    ∧ ((buildStatement card10 ⟨2024, 3⟩ [txn15] [rule15] ⟨2024, 3, 15⟩ "now").items.countP
        (stmtDedupHit "r1" ⟨2024, 2, 15⟩) = 1) :=
  ⟨by decide,
   (C1_dedup card10 ⟨2024, 3⟩ [txn15] [rule15] ⟨2024, 3, 15⟩ "now" "r1" ⟨2024, 2, 15⟩
     (by decide)).1⟩

/-- C3 counterexample: with `closing_day = 31` the 2024-03 period is
`[2024-02-29, 2024-03-31)` and a monthly day-29 rule yields candidate
dates in BOTH calendar months of the period; the statement materializes
both as virtual items — two occurrence dates for one rule in one period,
and the rule's amount counted twice in the total. -/
theorem C3_counterexample :
    (buildStatement card31 ⟨2024, 3⟩ [] [rule29] ⟨2024, 3, 1⟩ "now").items.countP
      (isVirtOfRule "r1") = 2
    ∧ (buildStatement card31 ⟨2024, 3⟩ [] [rule29] ⟨2024, 3, 1⟩ "now").total = 200 := by
  constructor <;> decide

/-- C3 amended: every virtual item's date lies in `[start, end)` and is
not after its generating rule's end date, and (with distinct rule ids,
as the primary key guarantees) the statement carries at most TWO virtual
occurrence dates per rule per period — at most one per calendar month
touched by the period — rather than at most one. -/
theorem C3_amended (card : CreditCard) (month : YM) (db_t : List Transaction)
    (db_r : List RecurringRule) (today : Date) (now : String)
    (hnd : (db_r.map RecurringRule.id).Nodup) :
    (∀ it ∈ (buildStatement card month db_t db_r today now).items,
      ∀ v : VirtualItem, it = Item.virt v →
        dateLe (buildStatement card month db_t db_r today now).period_start v.date = true
        ∧ dateLt v.date (buildStatement card month db_t db_r today now).period_end = true
        ∧ ∃ rule ∈ queryActiveRules card.user_id card.id db_r,
            v = mkVirtual card.id rule v.date now ∧ afterRuleEnd rule v.date = false)
    ∧ (∀ rid : String,
        (buildStatement card month db_t db_r today now).items.countP (isVirtOfRule rid) ≤ 2) := by
  simp only [buildStatement]
  constructor
  · intro it hit v hv
    have hit' := (sortByDateDesc_perm _).mem_iff.mp hit
    rcases stmt_rules_fold_shape card.id now
        (statementPeriod card.closing_day month).1 (statementPeriod card.closing_day month).2
        (queryActiveRules card.user_id card.id db_r) _ it hit' with hmem0 | hnew
    · rcases List.mem_map.mp hmem0 with ⟨t, _, ht⟩
      rw [hv] at ht
      cases ht
    · rcases hnew with ⟨rule, hrule, d, hit_eq, hle, hlt, hend⟩
      rw [hv] at hit_eq
      have hveq : v = mkVirtual card.id rule d now := by
        injection hit_eq
      have hdate : v.date = d := by rw [hveq]; rfl
      rw [hdate]
      exact ⟨hle, hlt, rule, hrule, by rw [hveq], hend⟩
  · intro rid
    rw [(sortByDateDesc_perm _).countP_eq]
    have hb := stmt_rules_fold_virtcount rid card.id now
      (statementPeriod card.closing_day month).1 (statementPeriod card.closing_day month).2
      (queryActiveRules card.user_id card.id db_r)
      ((queryPeriodTxns card.user_id card.id
          (statementPeriod card.closing_day month).1
          (statementPeriod card.closing_day month).2 db_t).map Item.real,
       ((queryPeriodTxns card.user_id card.id
          (statementPeriod card.closing_day month).1
          (statementPeriod card.closing_day month).2 db_t).map Transaction.amount).sum)
    have hzero : (((queryPeriodTxns card.user_id card.id
        (statementPeriod card.closing_day month).1
        (statementPeriod card.closing_day month).2 db_t).map Item.real,
       ((queryPeriodTxns card.user_id card.id
          (statementPeriod card.closing_day month).1
          (statementPeriod card.closing_day month).2 db_t).map Transaction.amount).sum) :
        List Item × Int).1.countP (isVirtOfRule rid) = 0 := by
      rw [List.countP_map]
      exact List.countP_eq_zero.mpr (fun t _ => by simp [Function.comp, isVirtOfRule])
    have hone : (queryActiveRules card.user_id card.id db_r).countP
        (fun r => r.id == rid) ≤ 1 := by
      have hsub : ((queryActiveRules card.user_id card.id db_r).map RecurringRule.id).Sublist
          (db_r.map RecurringRule.id) :=
        List.Sublist.map RecurringRule.id (List.filter_sublist db_r)
      have hnd' := hnd.sublist hsub
      have := List.nodup_iff_count_le_one.mp hnd' rid
      rwa [List.count_eq_countP, List.countP_map] at this
    omega

/-- C3 amended witness: the counterexample scenario meets the bound. -/
theorem C3_amended_witness :
    (buildStatement card31 ⟨2024, 3⟩ [] [rule29] ⟨2024, 3, 1⟩ "now").items.countP
      (isVirtOfRule "r1") ≤ 2 :=
  (C3_amended card31 ⟨2024, 3⟩ [] [rule29] ⟨2024, 3, 1⟩ "now" (by decide)).2 "r1"

/-- Modelled from the spec (§4.3 RecurrenceEvaluator): the candidate
occurrences computed WITH clamping via `safeDate`, as the specification
prescribes. Present only to compare the specified algorithm with the
implemented `candidatesFor`. -/
def candidatesForSpec (start_d end_d : Date) (day : Nat) : List Date :=
  let c1 := [get_date_safe start_d.year start_d.month day]
  let c2 :=
    if end_d.month != start_d.month || end_d.year != start_d.year then
      [get_date_safe end_d.year end_d.month day]
    else []
  c1 ++ c2

/-- C4 counterexample: for the period `[2024-02-10, 2024-03-10)` and a
day-31 rule, the spec's clamped algorithm produces the February
candidate 2024-02-29, but the code produces NO February candidate (the
`ValueError` is swallowed), hence no virtual item at all in the
statement. -/
theorem C4_counterexample :
    candidatesFor ⟨2024, 2, 10⟩ ⟨2024, 3, 10⟩ 31 = [⟨2024, 3, 31⟩]
    ∧ candidatesForSpec ⟨2024, 2, 10⟩ ⟨2024, 3, 10⟩ 31 = [⟨2024, 2, 29⟩, ⟨2024, 3, 31⟩]
    ∧ (⟨2024, 2, 29⟩ : Date) ∉ candidatesFor ⟨2024, 2, 10⟩ ⟨2024, 3, 10⟩ 31
    ∧ (buildStatement card10 ⟨2024, 3⟩ [] [rule31] ⟨2024, 3, 1⟩ "now").items = [] := by
  refine ⟨by decide, by decide, by decide, by decide⟩

/-- C4 amended: the statement builder's candidates are built with the
exact date constructor, never clamped — every candidate carries exactly
the rule's day, that day is valid for the candidate's month, and the
candidate lies in the period's start or end month; a month too short for
the day yields no candidate for that month. -/
theorem C4_amended (s e : Date) (day : Nat) :
    ∀ c ∈ candidatesFor s e day,
      c.day = day ∧ 1 ≤ day ∧ day ≤ daysInMonth c.year c.month
      ∧ (c.year = s.year ∧ c.month = s.month ∨ c.year = e.year ∧ c.month = e.month) := by
  have hmk : ∀ (y m : Nat) (dt : Date), mkDate y m day = some dt →
      dt = ⟨y, m, day⟩ ∧ 1 ≤ day ∧ day ≤ daysInMonth y m := by
    intro y m dt h
    unfold mkDate at h
    split at h
    · rename_i hcond
      injection h with h
      rw [Bool.and_eq_true] at hcond
      exact ⟨h.symm, by simpa using hcond.1, by simpa using hcond.2⟩
    · cases h
  intro c hc
  unfold candidatesFor at hc
  rcases List.mem_append.mp hc with hmem | hmem
  · cases hm : mkDate s.year s.month day with
    | none => rw [hm] at hmem; cases hmem
    | some d0 =>
      rw [hm] at hmem
      rcases hmk s.year s.month d0 hm with ⟨hd0, h1, h2⟩
      rw [List.mem_singleton.mp hmem, hd0]
      exact ⟨rfl, h1, h2, Or.inl ⟨rfl, rfl⟩⟩
  · have hmem' : c ∈ (match mkDate e.year e.month day with
        | some d => [d]
        | none => ([] : List Date)) := by
      rcases hsplit : (e.month != s.month || e.year != s.year) with _ | _
      · rw [hsplit] at hmem
        simp at hmem
      · rw [hsplit] at hmem
        simpa using hmem
    cases hm : mkDate e.year e.month day with
    | none => rw [hm] at hmem'; cases hmem'
    | some d0 =>
      rw [hm] at hmem'
      rcases hmk e.year e.month d0 hm with ⟨hd0, h1, h2⟩
      rw [List.mem_singleton.mp hmem', hd0]
      exact ⟨rfl, h1, h2, Or.inr ⟨rfl, rfl⟩⟩

/-- C4 amended witness: the March candidate of the counterexample. -/
theorem C4_amended_witness :
    (⟨2024, 3, 31⟩ : Date).day = 31 ∧ 1 ≤ 31
    ∧ 31 ≤ daysInMonth (⟨2024, 3, 31⟩ : Date).year (⟨2024, 3, 31⟩ : Date).month
    ∧ ((⟨2024, 3, 31⟩ : Date).year = (⟨2024, 2, 10⟩ : Date).year
          ∧ (⟨2024, 3, 31⟩ : Date).month = (⟨2024, 2, 10⟩ : Date).month
        ∨ (⟨2024, 3, 31⟩ : Date).year = (⟨2024, 3, 10⟩ : Date).year
          ∧ (⟨2024, 3, 31⟩ : Date).month = (⟨2024, 3, 10⟩ : Date).month) :=
  C4_amended ⟨2024, 2, 10⟩ ⟨2024, 3, 10⟩ 31 ⟨2024, 3, 31⟩ (by decide)
